import Mathlib

/-!
# A model of the Ocean Notes store (src/notes_frontend/src/App.js)

This file gives a shallow embedding of the note store and its derivations:

* `createNote`, `addNote`, `updateNote`, `deleteNote`, `setSelectedId`
  model the CRUD helpers of the `useLocalStorageNotes` hook;
* `loadNotes`, `loadSelected`, `initStore`, `persistNotes` model the
  localStorage initialisers and the persistence effect;
* `searchBase`, `filteredNotes` model the `filtered` derivation of
  `NoteList`.

Modelling conventions:

* Timestamps are naturals (epoch milliseconds).  The code stores
  `new Date().toISOString()` strings and compares them through
  `new Date(x).getTime()`; ISO-8601 instants and epoch milliseconds are
  related by an order-preserving bijection, so a single natural models
  both representations of one instant.
* A JavaScript note object is modelled by `NoteObj`, the view of an
  object through the five fields the program ever reads; `none` models
  an absent, `null` or `undefined` field.
* `Date.now()` and the `Math.random().toString(36).slice(2, 8)` suffix
  are nondeterministic inputs; operations take them as explicit
  arguments (`now`, `rand`).
-/

namespace OceanNotes

/-- The five-field view of a JavaScript note object.  `none` models a
missing (or `null`/`undefined`) field.  Field order follows the object
literal in `createNote` (App.js lines 29-35). -/
structure NoteObj where
  id : Option String
  title : Option String
  body : Option String
  updatedAt : Option Nat
  createdAt : Option Nat
deriving DecidableEq, Repr

/-! ## The id template `  Date.now() + "-" + randomSuffix  `

App.js line 30 builds the id string by interpolating the decimal
rendering of `Date.now()` and a random suffix around a `'-'`. -/

/-- The decimal digit character of `m` (for `m < 10`; larger inputs do
not occur). -/
def digitCh (m : Nat) : Char :=
  match m with
  | 0 => '0' | 1 => '1' | 2 => '2' | 3 => '3' | 4 => '4'
  | 5 => '5' | 6 => '6' | 7 => '7' | 8 => '8' | 9 => '9'
  | _ => '0'

/-- Decimal rendering of a natural, most significant digit first; models
JavaScript number-to-string conversion for nonnegative integers. -/
def natDecimal (n : Nat) : List Char :=
  if _h : n < 10 then [digitCh n]
  else natDecimal (n / 10) ++ [digitCh (n % 10)]
termination_by n
decreasing_by exact Nat.div_lt_self (by omega) (by omega)

/-- The id template of App.js line 30:
`  id: Date.now() + "-" + Math.random().toString(36).slice(2, 8)  `
with the timestamp `now` and the random suffix `rand` as inputs. -/
def mkId (now : Nat) (rand : String) : String :=
  String.mk (natDecimal now ++ '-' :: rand.data)

/-- `createNote` (App.js lines 27-36): a blank note carrying a fresh id,
the default title, an empty body and `createdAt = updatedAt = now`. -/
def createNote (now : Nat) (rand : String) : NoteObj :=
  { id := some (mkId now rand)
  , title := some "Untitled Note"
  , body := some ""
  , updatedAt := some now
  , createdAt := some now }

/-- The state owned by `useLocalStorageNotes`: the note list and the
selected id (`null` modelled as `none`). -/
structure StoreState where
  notes : List NoteObj
  selectedId : Option String
deriving DecidableEq, Repr

/-- `addNote` (App.js lines 92-97): prepend a fresh note and select its
id. -/
def addNote (now : Nat) (rand : String) (s : StoreState) : StoreState :=
  let n := createNote now rand
  { notes := n :: s.notes, selectedId := n.id }

/-- A partial field update, as passed by `handleTitleChange` /
`handleBodyChange` (`{ title: val }`, `{ body: val }`); `none` models an
absent key.  (The code's `updateNote` also accepts a functional updater,
which no call site in the program uses; the store operation modelled
here is the object-merge branch `{ ...n, ...updater }`.) -/
structure NoteUpdate where
  title : Option String := none
  body : Option String := none
deriving DecidableEq, Repr

/-- The merge `{ ...n, ...u, updatedAt: now }` performed by `updateNote`
(App.js lines 103-104) for an object updater `u`. -/
def mergeNote (n : NoteObj) (u : NoteUpdate) (now : Nat) : NoteObj :=
  { n with
    title := match u.title with | some t => some t | none => n.title
    body := match u.body with | some b => some b | none => n.body
    updatedAt := some now }

/-- `updateNote` (App.js lines 99-107): map over the list, merging the
update into the matching note; the selection is untouched. -/
def updateNote (now : Nat) (id : String) (u : NoteUpdate) (s : StoreState) : StoreState :=
  { s with notes := s.notes.map (fun n => if n.id = some id then mergeNote n u now else n) }

/-- `deleteNote` (App.js lines 109-112): filter out notes with the given
id and clear the selection when it equals that id
(`prev === id ? null : prev`). -/
def deleteNote (id : String) (s : StoreState) : StoreState :=
  { notes := s.notes.filter (fun n => n.id ≠ some id)
  , selectedId := if s.selectedId = some id then none else s.selectedId }

/-- `setSelectedId` as exposed by the hook: replace the selection without
validating existence. -/
def setSelectedId (oid : Option String) (s : StoreState) : StoreState :=
  { s with selectedId := oid }

/-- One store operation, with the nondeterministic clock/randomness
inputs made explicit. -/
inductive Op where
  | create (now : Nat) (rand : String)
  | update (now : Nat) (id : String) (u : NoteUpdate)
  | delete (id : String)
  | select (oid : Option String)
deriving DecidableEq, Repr

/-- Apply one operation to the store. -/
def step (s : StoreState) (op : Op) : StoreState :=
  match op with
  | .create now rand => addNote now rand s
  | .update now id u => updateNote now id u s
  | .delete id => deleteNote id s
  | .select oid => setSelectedId oid s

/-- Apply a sequence of operations, oldest first. -/
def run (s : StoreState) (ops : List Op) : StoreState :=
  ops.foldl step s

/-! ## Persistence (localStorage + JSON)

`useLocalStorageNotes` initialises `notes` from
`JSON.parse(localStorage.getItem(STORAGE_KEY))` (App.js lines 55-65) and
the selection from the `:selected` key (lines 67-70); an effect mirrors
the list back with `JSON.stringify` (lines 72-78).  JSON texts are
modelled by their parsed value trees: `JSON.parse ∘ JSON.stringify` is
the identity on the acyclic, `undefined`-free values produced here, so a
stored string is represented by the `Json` value it parses to. -/

/-- A JSON value.  Numbers are restricted to the naturals actually
stored (epoch-millisecond timestamps); objects are association lists of
distinct keys. -/
inductive Json where
  | null
  | str (s : String)
  | num (n : Nat)
  | arr (elems : List Json)
  | obj (fields : List (String × Json))

/-- Property lookup on a parsed object (keys produced by
`JSON.stringify` are distinct, so first-match lookup is exact). -/
def getField (fields : List (String × Json)) (k : String) : Option Json :=
  match fields with
  | [] => none
  | (k', v) :: rest => if k' = k then some v else getField rest k

/-- Read a string-valued property, `none` otherwise. -/
def asStr : Option Json → Option String
  | some (.str s) => some s
  | _ => none

/-- Read a timestamp-valued property, `none` otherwise. -/
def asNum : Option Json → Option Nat
  | some (.num n) => some n
  | _ => none

/-- The five-field view of one parsed snapshot entry — exactly the reads
(`n.id`, `n.title`, `n.body`, `n.updatedAt`, `n.createdAt`) the program
performs on a loaded note.  A non-object entry behaves as an object with
every field absent. -/
def decodeNote (j : Json) : NoteObj :=
  match j with
  | .obj fs =>
      { id := asStr (getField fs "id")
      , title := asStr (getField fs "title")
      , body := asStr (getField fs "body")
      , updatedAt := asNum (getField fs "updatedAt")
      , createdAt := asNum (getField fs "createdAt") }
  | _ => { id := none, title := none, body := none, updatedAt := none, createdAt := none }

/-- Key/value pair for a present field; `JSON.stringify` omits absent
(`undefined`) properties. -/
def optField (k : String) (v : Option Json) : List (String × Json) :=
  match v with
  | some j => [(k, j)]
  | none => []

/-- The `JSON.stringify` image of one note object (as its parsed value,
see the section header). -/
def encodeNote (n : NoteObj) : Json :=
  .obj (optField "id" (n.id.map .str) ++
        optField "title" (n.title.map .str) ++
        optField "body" (n.body.map .str) ++
        optField "updatedAt" (n.updatedAt.map .num) ++
        optField "createdAt" (n.createdAt.map .num))

/-- The raw content of the notes-snapshot key, with the outcome of
`JSON.parse` made explicit: `absent` models `getItem` returning `null`
(or the equally falsy empty string), `unparsable` a string on which
`JSON.parse` throws, and `parsed j` a string parsing to `j`. -/
inductive Raw where
  | absent
  | unparsable
  | parsed (j : Json)

/-- The notes initialiser (App.js lines 55-65): absent key, parse
failure, or a non-array value all fall back to `[]`; an array is taken
as the note list as-is. -/
def loadNotes : Raw → List NoteObj
  | .absent => []
  | .unparsable => []
  | .parsed (.arr es) => es.map decodeNote
  | .parsed _ => []

/-- The selection initialiser (App.js lines 67-70): `raw || null`. -/
def loadSelected (raw : Option String) : Option String :=
  match raw with
  | none => none
  | some s => if s = "" then none else some s

/-- The two persisted keys. -/
structure Storage where
  snapshot : Raw
  selected : Option String

/-- The store state at process start, built from the two keys. -/
def initStore (st : Storage) : StoreState :=
  { notes := loadNotes st.snapshot, selectedId := loadSelected st.selected }

/-- The persistence effect (App.js lines 72-78): the snapshot key ends
up holding `JSON.stringify(notes)`, represented by its parsed value. -/
def persistNotes (notes : List NoteObj) : Raw :=
  .parsed (.arr (notes.map encodeNote))

/-! ## The search/sort derivation of `NoteList` (App.js lines 312-326) -/

/-- JavaScript `String.prototype.toLowerCase`, character-wise. -/
def lowerStr (s : String) : String :=
  String.mk (s.data.map Char.toLower)

/-- JavaScript `String.prototype.trim`: strip whitespace from both
ends. -/
def jsTrim (s : String) : String :=
  String.mk (((s.data.dropWhile Char.isWhitespace).reverse.dropWhile Char.isWhitespace).reverse)

/-- JavaScript `hay.includes(needle)`: contiguous-substring test. -/
def includes (hay needle : String) : Bool :=
  decide (needle.data <:+: hay.data)

/-- The filter predicate of App.js lines 316-320, for the lowered,
trimmed query `lower`:
`  (n.title || "").toLowerCase().includes(lower) || (n.body || "").toLowerCase().includes(lower)  `. -/
def matchesQuery (lower : String) (n : NoteObj) : Bool :=
  includes (lowerStr (n.title.getD "")) lower || includes (lowerStr (n.body.getD "")) lower

/-- The sort key `new Date(n.updatedAt).getTime()`.  A note without
`updatedAt` yields `NaN` in JavaScript, making the engine's order
unspecified; the `getD 0` default is a placeholder exercised by no
ordering theorem (they assume every note carries `updatedAt`). -/
def noteTime (n : NoteObj) : Nat :=
  n.updatedAt.getD 0

/-- The comparator `(a, b) => timeB - timeA` as the Boolean "may `a`
come before `b`": nonpositive comparator value, i.e. `timeB ≤ timeA`. -/
def byUpdatedDesc (a b : NoteObj) : Bool :=
  noteTime b ≤ noteTime a

/-- Lines 313-321: lower and trim the query; a truthy (nonempty) result
filters the list, otherwise all notes pass. -/
def searchBase (search : String) (notes : List NoteObj) : List NoteObj :=
  let lower := lowerStr (jsTrim search)
  if lower ≠ "" then notes.filter (matchesQuery lower) else notes

/-- Lines 322-325: the filtered list, stably sorted by `updatedAt`
descending (`Array.prototype.sort` is stable per ES2019). -/
def filteredNotes (search : String) (notes : List NoteObj) : List NoteObj :=
  (searchBase search notes).mergeSort byUpdatedDesc

/-- A well-formed note: all five fields present (spec §3
"Invariants"). -/
def wellFormedNote (n : NoteObj) : Bool :=
  n.id.isSome && n.title.isSome && n.body.isSome && n.updatedAt.isSome && n.createdAt.isSome

/-- Whether the snapshot key falls into the startup fallback: absent,
unparsable, or parsed to a non-array. -/
def snapshotFallsBack : Raw → Bool
  | .absent => true
  | .unparsable => true
  | .parsed (.arr _) => false
  | .parsed _ => true

/-! ## Spec-side search predicate (for comparison with the code)

The spec (§4.1, §8) words the search as: notes whose title or body
contains *the query* as a case-insensitive substring, the empty query
matching all.  These definitions follow the spec's words, to be compared
with `searchBase`/`filteredNotes` above, which lower and *trim* the
query first. -/

/-- Spec wording: the (untrimmed) query occurs case-insensitively in the
title or the body. -/
def specMatches (query : String) (n : NoteObj) : Bool :=
  includes (lowerStr (n.title.getD "")) (lowerStr query) ||
  includes (lowerStr (n.body.getD "")) (lowerStr query)

/-- Spec wording for which notes the search returns: every note when the
query is empty, otherwise exactly the matching ones. -/
def specSearchKeeps (query : String) (n : NoteObj) : Bool :=
  query = "" || specMatches query n

/-! ## Helper lemmas: ids generated at distinct instants are distinct -/

/-- Value of a decimal digit character. -/
def digitVal (c : Char) : Nat := c.toNat - 48

/-- Read a digit string back into a natural. -/
def evalDigits (l : List Char) : Nat :=
  l.foldl (fun a c => 10 * a + digitVal c) 0

/-- The timestamp half of an id: digits before the first `'-'`. -/
def decodeIdTime (s : String) : Nat :=
  evalDigits (s.data.takeWhile (fun c => c ≠ '-'))

theorem evalDigits_append (l : List Char) (c : Char) :
    evalDigits (l ++ [c]) = 10 * evalDigits l + digitVal c := by
  simp [evalDigits, List.foldl_append]

theorem digitVal_digitCh : ∀ m < 10, digitVal (digitCh m) = m := by decide

theorem digitCh_ne_dash (m : Nat) : digitCh m ≠ '-' := by
  unfold digitCh
  split <;> decide

theorem evalDigits_natDecimal (n : Nat) : evalDigits (natDecimal n) = n := by
  induction n using Nat.strong_induction_on with
  | _ n ih =>
    rw [natDecimal]
    by_cases h : n < 10
    · rw [dif_pos h]
      simpa [evalDigits] using digitVal_digitCh n h
    · rw [dif_neg h, evalDigits_append,
        ih (n / 10) (Nat.div_lt_self (by omega) (by omega)),
        digitVal_digitCh (n % 10) (Nat.mod_lt _ (by omega))]
      omega

theorem natDecimal_ne_dash (n : Nat) : ∀ c ∈ natDecimal n, c ≠ '-' := by
  induction n using Nat.strong_induction_on with
  | _ n ih =>
    rw [natDecimal]
    by_cases h : n < 10
    · rw [dif_pos h]
      intro c hc
      rw [List.mem_singleton] at hc
      rw [hc]
      exact digitCh_ne_dash n
    · rw [dif_neg h]
      intro c hc
      rcases List.mem_append.mp hc with h1 | h1
      · exact ih (n / 10) (Nat.div_lt_self (by omega) (by omega)) c h1
      · rw [List.mem_singleton] at h1
        rw [h1]
        exact digitCh_ne_dash (n % 10)

theorem takeWhile_append_of_all {p : Char → Bool} :
    ∀ (l : List Char) (x : Char) (r : List Char),
      (∀ c ∈ l, p c = true) → p x = false → (l ++ x :: r).takeWhile p = l := by
  intro l x r hl hx
  induction l with
  | nil => simp [List.takeWhile_cons, hx]
  | cons a as ih =>
    have ha : p a = true := hl a (by simp)
    simp only [List.cons_append, List.takeWhile_cons, ha, if_true]
    rw [ih (fun c hc => hl c (by simp [hc]))]

theorem decodeIdTime_mkId (now : Nat) (rand : String) :
    decodeIdTime (mkId now rand) = now := by
  unfold decodeIdTime mkId
  show evalDigits ((natDecimal now ++ '-' :: rand.data).takeWhile (fun c => c ≠ '-')) = now
  rw [takeWhile_append_of_all (natDecimal now) '-' rand.data
      (fun c hc => by simpa using natDecimal_ne_dash now c hc) (by simp)]
  exact evalDigits_natDecimal now

theorem mkId_inj_time {t1 t2 : Nat} {r1 r2 : String} (h : mkId t1 r1 = mkId t2 r2) :
    t1 = t2 := by
  have := congrArg decodeIdTime h
  rwa [decodeIdTime_mkId, decodeIdTime_mkId] at this

/-! ## Helper lemmas: runs of consecutive creations -/

theorem run_creates_notes (inputs : List (Nat × String)) (s : StoreState) :
    (run s (inputs.map fun p => Op.create p.1 p.2)).notes =
      (inputs.map fun p => createNote p.1 p.2).reverse ++ s.notes := by
  induction inputs generalizing s with
  | nil => rfl
  | cons p ps ih =>
    show (run (addNote p.1 p.2 s) (ps.map fun q => Op.create q.1 q.2)).notes = _
    rw [ih]
    simp [addNote]

theorem run_creates_selected_concat (is : List (Nat × String)) (p : Nat × String)
    (s : StoreState) :
    (run s ((is ++ [p]).map fun q => Op.create q.1 q.2)).selectedId =
      some (mkId p.1 p.2) := by
  rw [run, List.map_append, List.foldl_append]
  rfl

/-- C1: `create()` yields a note with the default title, empty body and
`createdAt = updatedAt`, prepends it and selects its id; runs of N
creations from the empty store (at pairwise-distinct clock instants, the
code's source of id freshness) give N notes with pairwise-distinct ids,
the most recently created note being selected. -/
theorem create_defaults_prepends_selects :
    (∀ (now : Nat) (rand : String) (s : StoreState),
        addNote now rand s =
          { notes := createNote now rand :: s.notes
          , selectedId := some (mkId now rand) } ∧
        (createNote now rand).title = some "Untitled Note" ∧
        (createNote now rand).body = some "" ∧
        (createNote now rand).createdAt = (createNote now rand).updatedAt) ∧
    (∀ inputs : List (Nat × String),
        (inputs.map Prod.fst).Pairwise (· ≠ ·) →
        (run ⟨[], none⟩ (inputs.map fun p => Op.create p.1 p.2)).notes.length =
          inputs.length ∧
        ((run ⟨[], none⟩ (inputs.map fun p => Op.create p.1 p.2)).notes.map
            NoteObj.id).Pairwise (· ≠ ·) ∧
        ∀ (is : List (Nat × String)) (p : Nat × String), inputs = is ++ [p] →
          (run ⟨[], none⟩ (inputs.map fun q => Op.create q.1 q.2)).selectedId =
            some (mkId p.1 p.2)) := by
  constructor
  · intro now rand s
    exact ⟨rfl, rfl, rfl, rfl⟩
  · intro inputs hdist
    have hnotes := run_creates_notes inputs ⟨[], none⟩
    refine ⟨?_, ?_, ?_⟩
    · rw [hnotes]
      simp
    · rw [hnotes]
      simp only [List.append_nil, List.map_reverse, List.pairwise_reverse, List.map_map]
      rw [List.pairwise_map]
      rw [List.pairwise_map] at hdist
      refine hdist.imp ?_
      intro p q hpq
      simp only [Function.comp, createNote]
      intro hsome
      exact hpq (mkId_inj_time (Option.some.inj hsome)).symm
    · intro is p hin
      rw [hin]
      exact run_creates_selected_concat is p ⟨[], none⟩

/-- Witness for C1 at two concrete creations. -/
theorem create_defaults_prepends_selects_witness :
    (([(0, "a"), (1, "b")] : List (Nat × String)).map Prod.fst).Pairwise (· ≠ ·) ∧
    (run ⟨[], none⟩ (([(0, "a"), (1, "b")] : List (Nat × String)).map
        fun p => Op.create p.1 p.2)).notes.length = 2 ∧
    (run ⟨[], none⟩ (([(0, "a"), (1, "b")] : List (Nat × String)).map
        fun p => Op.create p.1 p.2)).selectedId = some (mkId 1 "b") := by
  refine ⟨by decide, ?_, ?_⟩
  · exact (create_defaults_prepends_selects.2 _ (by decide)).1
  · exact (create_defaults_prepends_selects.2 _ (by decide)).2.2 [(0, "a")] (1, "b") rfl

/-- C2: `delete(id)` keeps exactly the notes whose id differs (as a
subsequence of the original order); the selection is cleared when it
equals the deleted id and kept otherwise. -/
theorem delete_removes_matching_updates_selection (s : StoreState) (id : String) :
    (∀ n, n ∈ (deleteNote id s).notes ↔ n ∈ s.notes ∧ n.id ≠ some id) ∧
    (deleteNote id s).notes.Sublist s.notes ∧
    (deleteNote id s).selectedId =
      (if s.selectedId = some id then none else s.selectedId) := by
  refine ⟨?_, ?_, rfl⟩
  · intro n
    simp [deleteNote, List.mem_filter]
  · exact List.filter_sublist s.notes

/-- C4, counterexample: on a store whose dangling selection `"x"`
matches no note, `delete("x")` is not a no-op — it clears the
selection. -/
theorem unknown_id_delete_counterexample :
    (∀ n ∈ ({ notes := [], selectedId := some "x" } : StoreState).notes,
        n.id ≠ some "x") ∧
    deleteNote "x" { notes := [], selectedId := some "x" } ≠
      { notes := [], selectedId := some "x" } := by
  constructor
  · intro n hn
    simp at hn
  · decide

/-- C4, amended: with an id matching no note, `update` is a complete
no-op; `delete` leaves the note sequence unchanged and leaves the
selection unchanged unless the selection itself equals that id (a
dangling selection), which it clears. -/
theorem unknown_id_noop (s : StoreState) (now : Nat) (id : String) (u : NoteUpdate)
    (h : ∀ n ∈ s.notes, n.id ≠ some id) :
    updateNote now id u s = s ∧
    (deleteNote id s).notes = s.notes ∧
    (deleteNote id s).selectedId =
      (if s.selectedId = some id then none else s.selectedId) := by
  refine ⟨?_, ?_, rfl⟩
  · cases s with
    | mk ns sel =>
      simp only [updateNote]
      congr 1
      have h2 : ∀ n ∈ ns, (if n.id = some id then mergeNote n u now else n) = n := by
        intro n hn
        rw [if_neg]
        simpa using h n hn
      rw [List.map_congr_left h2, List.map_id']
  · exact List.filter_eq_self.mpr (fun n hn => by simpa using h n hn)

/-- Witness for the amended C4 at a concrete store (one note `"a"`,
selection `"a"`) and unknown id `"z"`; note fields are listed in
declaration order (id, title, body, updatedAt, createdAt). -/
theorem unknown_id_noop_witness :
    (∀ n ∈ (⟨[⟨some "a", some "t", some "b", some 5, some 5⟩],
        some "a"⟩ : StoreState).notes, n.id ≠ some "z") ∧
    updateNote 9 "z" ⟨some "T", none⟩
        ⟨[⟨some "a", some "t", some "b", some 5, some 5⟩], some "a"⟩ =
      ⟨[⟨some "a", some "t", some "b", some 5, some 5⟩], some "a"⟩ ∧
    (deleteNote "z"
        ⟨[⟨some "a", some "t", some "b", some 5, some 5⟩], some "a"⟩).notes =
      [⟨some "a", some "t", some "b", some 5, some 5⟩] := by
  refine ⟨by decide, ?_, ?_⟩
  · exact (unknown_id_noop _ 9 "z" _ (by decide)).1
  · exact (unknown_id_noop _ 9 "z" ⟨some "T", none⟩ (by decide)).2.1

/-- C5: for a note in the store matching `id`, a title-only update keeps
the body and sets `updatedAt` to the (strictly later, by the monotonic
clock hypothesis) current instant. -/
theorem update_title_only_preserves_body_bumps_updatedAt
    (s : StoreState) (now : Nat) (id : String) (t : String) (n : NoteObj)
    (hmem : n ∈ s.notes) (hid : n.id = some id)
    (tOld : Nat) (_hold : n.updatedAt = some tOld) (hclock : tOld < now) :
    ∃ m ∈ (updateNote now id { title := some t, body := none } s).notes,
      m.id = n.id ∧ m.createdAt = n.createdAt ∧ m.body = n.body ∧
      m.title = some t ∧ m.updatedAt = some now ∧ tOld < now := by
  refine ⟨mergeNote n { title := some t, body := none } now, ?_, rfl, rfl, rfl, rfl, rfl, hclock⟩
  simp only [updateNote]
  exact List.mem_map.mpr ⟨n, hmem, by rw [if_pos hid]⟩

/-- Witness for C5 at a concrete store, note and clock tick; note
fields in declaration order (id, title, body, updatedAt, createdAt). -/
theorem update_title_only_witness :
    (⟨some "a", some "t", some "b", some 5, some 4⟩ : NoteObj) ∈
      (⟨[⟨some "a", some "t", some "b", some 5, some 4⟩], none⟩ : StoreState).notes ∧
    (5 : Nat) < 9 ∧
    ∃ m ∈ (updateNote 9 "a" ⟨some "T", none⟩
        ⟨[⟨some "a", some "t", some "b", some 5, some 4⟩], none⟩).notes,
      m.id = some "a" ∧ m.createdAt = some 4 ∧ m.body = some "b" ∧
      m.title = some "T" ∧ m.updatedAt = some 9 ∧ (5 : Nat) < 9 := by
  refine ⟨?_, ?_, ?_⟩
  · decide
  · decide
  · exact update_title_only_preserves_body_bumps_updatedAt
      ⟨[⟨some "a", some "t", some "b", some 5, some 4⟩], none⟩ 9 "a" "T"
      ⟨some "a", some "t", some "b", some 5, some 4⟩ (by decide) rfl 5 rfl (by decide)

/-- Every note of a stepped store either keeps the id and `createdAt` of
a note already present, or is the note a `create` in the batch made. -/
theorem step_id_createdAt_origin (s : StoreState) (op : Op) (n' : NoteObj)
    (h : n' ∈ (step s op).notes) :
    (∃ n ∈ s.notes, n'.id = n.id ∧ n'.createdAt = n.createdAt) ∨
    (∃ now rand, op = Op.create now rand ∧
      n'.id = some (mkId now rand) ∧ n'.createdAt = some now) := by
  cases op with
  | create now rand =>
    rcases List.mem_cons.mp h with h1 | h1
    · exact Or.inr ⟨now, rand, rfl, by rw [h1]; exact rfl, by rw [h1]; exact rfl⟩
    · exact Or.inl ⟨n', h1, rfl, rfl⟩
  | update now id u =>
    rcases List.mem_map.mp h with ⟨n, hn, hfn⟩
    refine Or.inl ⟨n, hn, ?_⟩
    by_cases hid : n.id = some id
    · rw [← hfn, if_pos hid]
      exact ⟨rfl, rfl⟩
    · rw [← hfn, if_neg hid]
      exact ⟨rfl, rfl⟩
  | delete id =>
    exact Or.inl ⟨n', (List.mem_filter.mp h).1, rfl, rfl⟩
  | select oid =>
    exact Or.inl ⟨n', h, rfl, rfl⟩

/-- C9: across any sequence of store operations, every note of the final
store carries the id and `createdAt` it had when it entered the store —
either those of a note of the initial store, or those minted by the
`create` that produced it; `update` in particular never changes them. -/
theorem ids_and_createdAt_immutable (ops : List Op) (s : StoreState) (n' : NoteObj)
    (h : n' ∈ (run s ops).notes) :
    (∃ n ∈ s.notes, n'.id = n.id ∧ n'.createdAt = n.createdAt) ∨
    (∃ now rand, Op.create now rand ∈ ops ∧
      n'.id = some (mkId now rand) ∧ n'.createdAt = some now) := by
  induction ops generalizing s with
  | nil => exact Or.inl ⟨n', h, rfl, rfl⟩
  | cons op rest ih =>
    rcases ih (step s op) h with h1 | h1
    · rcases h1 with ⟨m, hm, hid, hca⟩
      rcases step_id_createdAt_origin s op m hm with h2 | h2
      · rcases h2 with ⟨n, hn, hid2, hca2⟩
        exact Or.inl ⟨n, hn, hid.trans hid2, hca.trans hca2⟩
      · rcases h2 with ⟨now, rand, hop, hid2, hca2⟩
        exact Or.inr ⟨now, rand, by rw [hop]; exact List.mem_cons_self _ _,
          hid.trans hid2, hca.trans hca2⟩
    · rcases h1 with ⟨now, rand, hop, hid2, hca2⟩
      exact Or.inr ⟨now, rand, List.mem_cons_of_mem _ hop, hid2, hca2⟩

/-- Witness for C9: one update and one delete over a concrete store. -/
theorem ids_and_createdAt_immutable_witness :
    (⟨some "a", some "T", some "b", some 9, some 4⟩ : NoteObj) ∈
      (run ⟨[⟨some "a", some "t", some "b", some 5, some 4⟩], none⟩
        [Op.update 9 "a" ⟨some "T", none⟩, Op.delete "z"]).notes ∧
    ((∃ n ∈ (⟨[⟨some "a", some "t", some "b", some 5, some 4⟩], none⟩ :
          StoreState).notes,
        (⟨some "a", some "T", some "b", some 9, some 4⟩ : NoteObj).id = n.id ∧
        (⟨some "a", some "T", some "b", some 9, some 4⟩ : NoteObj).createdAt =
          n.createdAt) ∨
      (∃ now rand,
        Op.create now rand ∈ [Op.update 9 "a" ⟨some "T", none⟩, Op.delete "z"] ∧
        (⟨some "a", some "T", some "b", some 9, some 4⟩ : NoteObj).id =
          some (mkId now rand) ∧
        (⟨some "a", some "T", some "b", some 9, some 4⟩ : NoteObj).createdAt =
          some now)) := by
  refine ⟨?_, ?_⟩
  · decide
  · exact ids_and_createdAt_immutable [Op.update 9 "a" ⟨some "T", none⟩, Op.delete "z"]
      ⟨[⟨some "a", some "t", some "b", some 5, some 4⟩], none⟩
      ⟨some "a", some "T", some "b", some 9, some 4⟩ (by decide)

/-! ## Persistence round-trip and startup fallback -/

/-- Reading the five fields back from the `JSON.stringify` image of a
note recovers the note. -/
theorem decodeNote_encodeNote (n : NoteObj) : decodeNote (encodeNote n) = n := by
  cases n with
  | mk id title body updatedAt createdAt =>
    cases id <;> cases title <;> cases body <;> cases updatedAt <;> cases createdAt <;>
      simp [encodeNote, decodeNote, optField, getField, asStr, asNum]

/-- C6: persisting a sequence of well-formed notes and loading the
result back yields the same notes, in particular the same count. -/
theorem persist_load_roundtrip (ns : List NoteObj)
    (_h : ∀ n ∈ ns, wellFormedNote n = true) :
    loadNotes (persistNotes ns) = ns ∧
    (loadNotes (persistNotes ns)).length = ns.length := by
  have heq : loadNotes (persistNotes ns) = ns := by
    show (ns.map encodeNote).map decodeNote = ns
    rw [List.map_map]
    have h2 : ∀ n ∈ ns, (decodeNote ∘ encodeNote) n = n := fun n _ => decodeNote_encodeNote n
    rw [List.map_congr_left h2, List.map_id']
  exact ⟨heq, by rw [heq]⟩

/-- Witness for C6 at a concrete well-formed note sequence. -/
theorem persist_load_roundtrip_witness :
    (∀ n ∈ [(⟨some "a", some "t", some "b", some 5, some 4⟩ : NoteObj)],
        wellFormedNote n = true) ∧
    loadNotes (persistNotes [⟨some "a", some "t", some "b", some 5, some 4⟩]) =
      [⟨some "a", some "t", some "b", some 5, some 4⟩] := by
  refine ⟨?_, ?_⟩
  · decide
  · exact (persist_load_roundtrip [⟨some "a", some "t", some "b", some 5, some 4⟩]
      (by decide)).1

/-- C7, counterexample: with the snapshot key absent but a stale value
under the selection key, startup yields an empty note sequence yet a
non-`none` selection — the selection is loaded independently of the
snapshot. -/
theorem load_dangling_selection_counterexample :
    snapshotFallsBack Raw.absent = true ∧
    (initStore ⟨Raw.absent, some "abc"⟩).notes = [] ∧
    (initStore ⟨Raw.absent, some "abc"⟩).selectedId = some "abc" ∧
    some "abc" ≠ (none : Option String) := by
  refine ⟨rfl, rfl, ?_, by decide⟩
  show loadSelected (some "abc") = some "abc"
  decide

/-- C7, amended: whenever the snapshot is absent, unparsable or not an
array, startup initialises the notes to the empty sequence (the total
functions `loadNotes`/`initStore` model "no error is raised"); the
selection is initialised independently, from the selection key alone. -/
theorem load_bad_snapshot_empty_notes (st : Storage)
    (h : snapshotFallsBack st.snapshot = true) :
    (initStore st).notes = [] ∧
    (initStore st).selectedId = loadSelected st.selected := by
  refine ⟨?_, rfl⟩
  cases st with
  | mk snap sel =>
    cases snap with
    | absent => rfl
    | unparsable => rfl
    | parsed j =>
      cases j with
      | arr es => simp [snapshotFallsBack] at h
      | null => rfl
      | str s => rfl
      | num n => rfl
      | obj fs => rfl

/-- Witness for the amended C7 on an unparsable snapshot. -/
theorem load_bad_snapshot_empty_notes_witness :
    snapshotFallsBack Raw.unparsable = true ∧
    (initStore ⟨Raw.unparsable, some "sel"⟩).notes = [] ∧
    (initStore ⟨Raw.unparsable, some "sel"⟩).selectedId =
      loadSelected (some "sel") := by
  refine ⟨rfl, ?_, ?_⟩
  · exact (load_bad_snapshot_empty_notes ⟨Raw.unparsable, some "sel"⟩ rfl).1
  · exact (load_bad_snapshot_empty_notes ⟨Raw.unparsable, some "sel"⟩ rfl).2

/-- C8, counterexample: an array entry missing the id, body and
timestamp fields is *kept* by load (as its five-field view), not
discarded, and the loaded store then contains a non-well-formed note. -/
theorem load_keeps_malformed_counterexample :
    loadNotes (Raw.parsed (Json.arr [Json.obj [("title", Json.str "x")]])) =
      [⟨none, some "x", none, none, none⟩] ∧
    wellFormedNote ⟨none, some "x", none, none, none⟩ = false := by
  constructor
  · decide
  · decide

/-- C8, amended: load performs no per-entry validation: every entry of
an array snapshot is retained (as the five-field view the program reads
from it), malformed entries included, and loading never fails. -/
theorem load_array_keeps_all_entries (es : List Json) :
    (loadNotes (Raw.parsed (Json.arr es))).length = es.length ∧
    ∀ j ∈ es, decodeNote j ∈ loadNotes (Raw.parsed (Json.arr es)) := by
  refine ⟨by simp [loadNotes], ?_⟩
  intro j hj
  exact List.mem_map_of_mem decodeNote hj

/-- Witness for the amended C8 on a two-entry array with one malformed
entry. -/
theorem load_array_keeps_all_entries_witness :
    (loadNotes (Raw.parsed
        (Json.arr [Json.obj [("title", Json.str "x")], Json.null]))).length = 2 ∧
    decodeNote Json.null ∈ loadNotes (Raw.parsed
        (Json.arr [Json.obj [("title", Json.str "x")], Json.null])) := by
  refine ⟨(load_array_keeps_all_entries _).1, ?_⟩
  exact (load_array_keeps_all_entries _).2 Json.null
    (List.mem_cons_of_mem _ (List.mem_cons_self _ _))

/-! ## The search derivation -/

theorem byUpdatedDesc_trans (a b c : NoteObj) (h1 : byUpdatedDesc a b = true)
    (h2 : byUpdatedDesc b c = true) : byUpdatedDesc a c = true := by
  simp only [byUpdatedDesc, decide_eq_true_eq] at h1 h2 ⊢
  omega

theorem byUpdatedDesc_total (a b : NoteObj) :
    (byUpdatedDesc a b || byUpdatedDesc b a) = true := by
  simp only [byUpdatedDesc, Bool.or_eq_true, decide_eq_true_eq]
  omega

/-- Which notes the derivation returns: membership characterisation in
terms of the lowered, trimmed query. -/
theorem mem_filteredNotes (search : String) (notes : List NoteObj) (n : NoteObj) :
    n ∈ filteredNotes search notes ↔
      n ∈ notes ∧ (lowerStr (jsTrim search) = "" ∨
        matchesQuery (lowerStr (jsTrim search)) n = true) := by
  show n ∈ (searchBase search notes).mergeSort byUpdatedDesc ↔ _
  rw [List.mem_mergeSort]
  simp only [searchBase]
  by_cases hl : lowerStr (jsTrim search) = ""
  · simp [hl]
  · simp [hl, List.mem_filter]

/-- A nonempty string is never a substring of the empty string. -/
theorem includes_empty_hay (s : String) : includes "" s = true ↔ s = "" := by
  unfold includes
  rw [decide_eq_true_iff]
  show s.data <:+: [] ↔ s = ""
  rw [List.infix_nil]
  exact ⟨fun h => String.ext (by simpa using h), fun h => by simp [h]⟩

/-- C3, counterexample: the code trims the query before matching.  On
the store `[{title: "abc", body: ""}]` the query `" "` is neither empty
nor a substring of title or body (so the claim as stated returns
nothing), yet the derivation returns the note, because the trimmed
query is empty and matches all. -/
theorem search_untrimmed_query_counterexample :
    filteredNotes " " [⟨some "1", some "abc", some "", some 0, some 0⟩] =
      [⟨some "1", some "abc", some "", some 0, some 0⟩] ∧
    specSearchKeeps " " ⟨some "1", some "abc", some "", some 0, some 0⟩ = false ∧
    (" " : String) ≠ "" := by
  refine ⟨?_, by decide, by decide⟩
  show (searchBase " " [⟨some "1", some "abc", some "", some 0, some 0⟩]).mergeSort
      byUpdatedDesc = _
  rw [show searchBase " " [⟨some "1", some "abc", some "", some 0, some 0⟩] =
      [⟨some "1", some "abc", some "", some 0, some 0⟩] from by decide]
  exact List.mergeSort_singleton _

/-- C3, amended: the derivation returns exactly the notes whose title or
body contains the *trimmed* query as a case-insensitive substring (a
query that is empty after trimming matches all), ordered by `updatedAt`
descending, ties keeping their input-sequence order.  The hypothesis
scopes the ordering statements to well-formed notes (a missing
`updatedAt` yields `NaN` in the JavaScript comparator, whose order the
engine does not specify). -/
theorem search_returns_trimmed_matches_sorted (search : String) (notes : List NoteObj)
    (_hw : ∀ n ∈ notes, n.updatedAt.isSome = true) :
    (filteredNotes search notes).Perm (searchBase search notes) ∧
    (searchBase search notes).Sublist notes ∧
    (∀ n, n ∈ filteredNotes search notes ↔
      n ∈ notes ∧ (lowerStr (jsTrim search) = "" ∨
        matchesQuery (lowerStr (jsTrim search)) n = true)) ∧
    (filteredNotes search notes).Pairwise
      (fun a b => ∀ ta tb, a.updatedAt = some ta → b.updatedAt = some tb → tb ≤ ta) ∧
    (∀ t : Nat, (filteredNotes search notes).filter (fun n => n.updatedAt = some t) =
      (searchBase search notes).filter (fun n => n.updatedAt = some t)) := by
  refine ⟨List.mergeSort_perm _ _, ?_, fun n => mem_filteredNotes search notes n, ?_, ?_⟩
  · simp only [searchBase]
    by_cases hl : lowerStr (jsTrim search) = ""
    · simp [hl]
    · simp only [hl, ne_eq, not_false_eq_true, if_pos]
      exact List.filter_sublist notes
  · have hs := List.sorted_mergeSort byUpdatedDesc_trans byUpdatedDesc_total
      (searchBase search notes)
    refine hs.imp ?_
    intro a b h ta tb hta htb
    simp only [byUpdatedDesc, noteTime, hta, htb, Option.getD_some, decide_eq_true_eq] at h
    exact h
  · intro t
    have hpair : ((searchBase search notes).filter
        (fun n => n.updatedAt = some t)).Pairwise (fun a b => byUpdatedDesc a b = true) := by
      apply List.pairwise_of_forall_mem_list
      intro a ha b hb
      have ha' := List.of_mem_filter ha
      have hb' := List.of_mem_filter hb
      simp only [decide_eq_true_eq] at ha' hb'
      simp only [byUpdatedDesc, noteTime, ha', hb', Option.getD_some, decide_eq_true_eq]
      exact Nat.le_refl t
    have hsub : ((searchBase search notes).filter
        (fun n => n.updatedAt = some t)).Sublist
        ((searchBase search notes).mergeSort byUpdatedDesc) :=
      List.sublist_mergeSort byUpdatedDesc_trans byUpdatedDesc_total hpair
        (List.filter_sublist _)
    have hself : (((searchBase search notes).filter
        (fun n => n.updatedAt = some t)).filter (fun n => n.updatedAt = some t)) =
        (searchBase search notes).filter (fun n => n.updatedAt = some t) := by
      apply List.filter_eq_self.mpr
      intro a ha
      have h2 := List.of_mem_filter ha
      exact h2
    have hsub2 : ((searchBase search notes).filter
        (fun n => n.updatedAt = some t)).Sublist
        (((searchBase search notes).mergeSort byUpdatedDesc).filter
          (fun n => n.updatedAt = some t)) := by
      have := List.Sublist.filter (fun n => decide (n.updatedAt = some t)) hsub
      rwa [hself] at this
    have hperm : ((((searchBase search notes).mergeSort byUpdatedDesc).filter
        (fun n => n.updatedAt = some t))).Perm
        ((searchBase search notes).filter (fun n => n.updatedAt = some t)) :=
      (List.mergeSort_perm (searchBase search notes) byUpdatedDesc).filter _
    exact (hsub2.eq_of_length hperm.length_eq.symm).symm

/-- Witness for the amended C3: the query `"AB "` (mixed case, trailing
space) on a one-note store. -/
theorem search_returns_trimmed_matches_witness :
    (∀ n ∈ [(⟨some "1", some "xaby", some "", some 3, some 3⟩ : NoteObj)],
        n.updatedAt.isSome = true) ∧
    (filteredNotes "AB " [⟨some "1", some "xaby", some "", some 3, some 3⟩]).Perm
      (searchBase "AB " [⟨some "1", some "xaby", some "", some 3, some 3⟩]) ∧
    ((⟨some "1", some "xaby", some "", some 3, some 3⟩ : NoteObj) ∈
        filteredNotes "AB " [⟨some "1", some "xaby", some "", some 3, some 3⟩] ↔
      (⟨some "1", some "xaby", some "", some 3, some 3⟩ : NoteObj) ∈
          [(⟨some "1", some "xaby", some "", some 3, some 3⟩ : NoteObj)] ∧
        (lowerStr (jsTrim "AB ") = "" ∨
          matchesQuery (lowerStr (jsTrim "AB "))
            ⟨some "1", some "xaby", some "", some 3, some 3⟩ = true)) := by
  refine ⟨?_, ?_, ?_⟩
  · decide
  · exact (search_returns_trimmed_matches_sorted "AB "
      [⟨some "1", some "xaby", some "", some 3, some 3⟩] (by decide)).1
  · exact (search_returns_trimmed_matches_sorted "AB "
      [⟨some "1", some "xaby", some "", some 3, some 3⟩] (by decide)).2.2.1
      ⟨some "1", some "xaby", some "", some 3, some 3⟩

/-- C10: the derivation is total on notes with a missing (or null)
title or body — the read `(n.title || "")` / `(n.body || "")` supplies
the empty string — and such a note is returned exactly when the other
field matches the (trimmed, lowered) query, or that query is empty. -/
theorem search_total_missing_fields (notes : List NoteObj) (q : String) (n : NoteObj) :
    (n.title = none →
      (n ∈ filteredNotes q notes ↔
        n ∈ notes ∧ (lowerStr (jsTrim q) = "" ∨
          includes (lowerStr (n.body.getD "")) (lowerStr (jsTrim q)) = true))) ∧
    (n.body = none →
      (n ∈ filteredNotes q notes ↔
        n ∈ notes ∧ (lowerStr (jsTrim q) = "" ∨
          includes (lowerStr (n.title.getD "")) (lowerStr (jsTrim q)) = true))) := by
  constructor
  · intro ht
    rw [mem_filteredNotes]
    refine and_congr_right (fun _ => ⟨?_, ?_⟩)
    · rintro (h | h)
      · exact Or.inl h
      · simp only [matchesQuery, ht, Option.getD_none, Bool.or_eq_true] at h
        rcases h with h | h
        · exact Or.inl ((includes_empty_hay _).mp (by simpa [lowerStr] using h))
        · exact Or.inr h
    · rintro (h | h)
      · exact Or.inl h
      · refine Or.inr ?_
        simp only [matchesQuery, Bool.or_eq_true]
        exact Or.inr h
  · intro hb
    rw [mem_filteredNotes]
    refine and_congr_right (fun _ => ⟨?_, ?_⟩)
    · rintro (h | h)
      · exact Or.inl h
      · simp only [matchesQuery, hb, Option.getD_none, Bool.or_eq_true] at h
        rcases h with h | h
        · exact Or.inr h
        · exact Or.inl ((includes_empty_hay _).mp (by simpa [lowerStr] using h))
    · rintro (h | h)
      · exact Or.inl h
      · refine Or.inr ?_
        simp only [matchesQuery, Bool.or_eq_true]
        exact Or.inl h

/-- Witness for C10: a note with a missing title and a note with a
missing body, against the query `"xy"`. -/
theorem search_total_missing_fields_witness :
    ((⟨some "1", none, some "xyz", some 0, some 0⟩ : NoteObj).title = none ∧
      ((⟨some "1", none, some "xyz", some 0, some 0⟩ : NoteObj) ∈
          filteredNotes "xy" [⟨some "1", none, some "xyz", some 0, some 0⟩] ↔
        (⟨some "1", none, some "xyz", some 0, some 0⟩ : NoteObj) ∈
            [(⟨some "1", none, some "xyz", some 0, some 0⟩ : NoteObj)] ∧
          (lowerStr (jsTrim "xy") = "" ∨
            includes (lowerStr ((some "xyz").getD "")) (lowerStr (jsTrim "xy")) = true))) ∧
    ((⟨some "2", some "xyz", none, some 0, some 0⟩ : NoteObj).body = none ∧
      ((⟨some "2", some "xyz", none, some 0, some 0⟩ : NoteObj) ∈
          filteredNotes "xy" [⟨some "2", some "xyz", none, some 0, some 0⟩] ↔
        (⟨some "2", some "xyz", none, some 0, some 0⟩ : NoteObj) ∈
            [(⟨some "2", some "xyz", none, some 0, some 0⟩ : NoteObj)] ∧
          (lowerStr (jsTrim "xy") = "" ∨
            includes (lowerStr ((some "xyz").getD "")) (lowerStr (jsTrim "xy")) = true))) := by
  refine ⟨⟨rfl, ?_⟩, ⟨rfl, ?_⟩⟩
  · exact (search_total_missing_fields [⟨some "1", none, some "xyz", some 0, some 0⟩]
      "xy" ⟨some "1", none, some "xyz", some 0, some 0⟩).1 rfl
  · exact (search_total_missing_fields [⟨some "2", some "xyz", none, some 0, some 0⟩]
      "xy" ⟨some "2", some "xyz", none, some 0, some 0⟩).2 rfl

end OceanNotes
